import Mathlib

/-!
Shallow embedding of the concurrent batch transfer engine of
vite-plugin-deploy-oss (src/src/index.ts, final revision, lines 987-1477).
External collaborators (the OSS client, the local filesystem) are abstracted
as oracles; the scheduling nondeterminism of the worker pool is abstracted as
the completion order of the claimed task indices.
-/

namespace DeployOss

/-- Mirrors the UploadResult interface (index.ts lines 1025-1032): one record
per candidate with success flag, local file path, remote key name, size in
bytes, number of retries consumed, and an optional error message. -/
structure UploadResult where
  success : Bool
  file : String
  name : String
  size : Nat
  retries : Nat
  error : Option String
  deriving DecidableEq

/-- Mirrors the UploadTask interface (index.ts lines 1034-1038): a transfer
task built after a successful stat. -/
structure UploadTask where
  filePath : String
  name : String
  size : Nat
  deriving DecidableEq

/-- Configuration fields of the plugin that the transfer engine reads
(index.ts lines 1097-1118). -/
structure BatchConfig where
  outDir : String
  uploadDir : String
  concurrency : Nat
  retryTimes : Nat
  multipartThreshold : Nat
  autoDelete : Bool
  failOnError : Bool

/-- Vite's normalizePath helper is an external collaborator; for POSIX paths
it returns its argument unchanged (it only rewrites Windows backslashes), so
it is modelled as the identity on the forward-slash paths used here. -/
def normalizePathPosix (p : String) : String := p

/-- Node's resolve(outDir, relativeFilePath) for an already-resolved outDir
and a relative candidate path without dot segments: join with a slash. -/
def resolvePath (outDir rel : String) : String := outDir ++ "/" ++ rel

/-- One left-to-right pass embedding the first regex replace of
normalizeObjectKey (index.ts line 1042), which rewrites every run of two or
more slashes by a single slash; a maximal run of slashes is emitted as one
slash and other characters are kept.  The flag records whether the previous
input character was a slash. -/
def collapseAux : Bool → List Char → List Char
  | _, [] => []
  | prevSlash, c :: rest =>
    if c == '/' then
      if prevSlash then collapseAux true rest
      else '/' :: collapseAux true rest
    else c :: collapseAux false rest

/-- Embeds normalizeObjectKey (index.ts lines 1040-1043): vite normalizePath
of targetDir ++ "/" ++ relativeFilePath, then collapse repeated slashes, then
strip leading slashes (the second regex replace at line 1043). -/
def normalizeObjectKey (targetDir relativeFilePath : String) : String :=
  String.mk
    ((collapseAux false
        (normalizePathPosix (targetDir ++ "/" ++ relativeFilePath)).data).dropWhile
      (fun c => c == '/'))

/-- Detects two adjacent slashes (a doubled separator) in a character list. -/
def hasAdjSlashes : List Char → Bool
  | [] => false
  | [_] => false
  | c :: d :: rest => (c == '/' && d == '/') || hasAdjSlashes (d :: rest)

/-- The collapse flag after a character list has been processed: it is set
exactly when the last processed character was a slash. -/
def slashFlag (b : Bool) (l : List Char) : Bool :=
  l.foldl (fun _ c => c == '/') b

/-- Outcome of one transfer attempt against the OSS client collaborator: a
status 200 response is a success; a non-200 status or a thrown transport
error is a failure carrying the error message (index.ts lines 1162-1186). -/
inductive AttemptOutcome where
  | success : AttemptOutcome
  | failure (err : String) : AttemptOutcome
  deriving DecidableEq

/-- One call made to the OSS client: a single-shot put or a multipart upload
with its part size and inner parallelism (index.ts lines 1162-1172). -/
inductive TransferCall where
  | put (name filePath : String) : TransferCall
  | multipartUpload (name filePath : String) (partSize parallel : Nat) : TransferCall
  deriving DecidableEq

/-- Embeds the transfer-size decision at index.ts line 1152:
task.size >= multipartThreshold. -/
def shouldUseMultipart (size threshold : Nat) : Bool := decide (threshold ≤ size)

/-- Embeds the inner multipart parallelism at index.ts line 1166:
Math.max(1, Math.min(concurrency, 4)). -/
def multipartParallel (concurrency : Nat) : Nat := max 1 (min concurrency 4)

/-- Part size passed to multipartUpload, index.ts line 1165: 1024 * 1024. -/
def multipartPartSize : Nat := 1024 * 1024

/-- The single client call one attempt makes (index.ts lines 1162-1172):
multipart when the size decision says so, otherwise a single-shot put. -/
def transferCallOf (cfg : BatchConfig) (task : UploadTask) : TransferCall :=
  if shouldUseMultipart task.size cfg.multipartThreshold then
    TransferCall.multipartUpload task.name task.filePath multipartPartSize
      (multipartParallel cfg.concurrency)
  else
    TransferCall.put task.name task.filePath

/-- Observable behaviour of one uploadFileWithRetry run: the UploadResult it
returns, the backoff delays slept between attempts (in milliseconds, in
order), the client calls made (in order), the number of attempts performed,
and whether a cleanup warning was logged for a failed auto-delete unlink. -/
structure AttemptRun where
  result : UploadResult
  delays : List Nat
  calls : List TransferCall
  attempts : Nat
  cleanupWarned : Bool
  deriving DecidableEq

/-- Embeds the retry loop of uploadFileWithRetry (index.ts lines 1160-1219).
attempt is the 1-based attempt counter of the source loop and fuel the number
of attempts still allowed, so fuel = 0 is the loop exit reaching the
post-loop failure return at lines 1212-1219 (only reachable when maxRetries
is 0).  oracle n is the outcome of the n-th client call; unlinkFails tells
whether the auto-delete unlink of this file would fail; a failed unlink is
caught, logged (cleanupWarned) and the success result is returned unchanged
(lines 1175-1183).  A failed attempt that is not the last sleeps
1000 * attempt milliseconds (line 1207) and retries; the last failed attempt
returns a terminal failure with retries = attempt - 1 carrying that
attempt's error (lines 1188-1201). -/
def retryGo (cfg : BatchConfig) (oracle : Nat → AttemptOutcome)
    (unlinkFails : Bool) (task : UploadTask) (maxRetries : Nat) :
    Nat → Nat → AttemptRun
  | _, 0 =>
    { result := { success := false, file := task.filePath, name := task.name,
                  size := task.size, retries := maxRetries,
                  error := some "Max retries exceeded" },
      delays := [], calls := [], attempts := 0, cleanupWarned := false }
  | attempt, fuel + 1 =>
    match oracle attempt with
    | AttemptOutcome.success =>
      { result := { success := true, file := task.filePath, name := task.name,
                    size := task.size, retries := attempt - 1, error := none },
        delays := [], calls := [transferCallOf cfg task], attempts := attempt,
        cleanupWarned := cfg.autoDelete && unlinkFails }
    | AttemptOutcome.failure err =>
      if fuel = 0 then
        { result := { success := false, file := task.filePath, name := task.name,
                      size := task.size, retries := attempt - 1,
                      error := some err },
          delays := [], calls := [transferCallOf cfg task], attempts := attempt,
          cleanupWarned := false }
      else
        let rest := retryGo cfg oracle unlinkFails task maxRetries (attempt + 1) fuel
        { result := rest.result,
          delays := 1000 * attempt :: rest.delays,
          calls := transferCallOf cfg task :: rest.calls,
          attempts := rest.attempts,
          cleanupWarned := rest.cleanupWarned }

/-- Embeds uploadFileWithRetry (index.ts lines 1146-1220): run the attempt
loop from attempt 1 with maxRetries attempts allowed. -/
def uploadFileWithRetry (cfg : BatchConfig) (oracle : Nat → AttemptOutcome)
    (unlinkFails : Bool) (task : UploadTask) (maxRetries : Nat) : AttemptRun :=
  retryGo cfg oracle unlinkFails task maxRetries 1 maxRetries

/-- One entry of the taskCandidates array (index.ts lines 1235-1247): either
a built task after a successful stat, or the stat error together with the
resolved file path and the remote key name. -/
inductive TaskCandidate where
  | ok (task : UploadTask) : TaskCandidate
  | failed (error : String) (filePath : String) (name : String) : TaskCandidate
  deriving DecidableEq

/-- Embeds the stat step of one candidate (index.ts lines 1236-1246): resolve
the local path against outDir, compute the remote key, and stat the file; a
stat failure yields the failed candidate.  statO abstracts the filesystem
collaborator stat(path). -/
def buildCandidate (cfg : BatchConfig) (statO : String → Except String Nat)
    (relativeFilePath : String) : TaskCandidate :=
  let filePath := normalizePathPosix (resolvePath cfg.outDir relativeFilePath)
  let name := normalizeObjectKey cfg.uploadDir relativeFilePath
  match statO filePath with
  | Except.ok size => TaskCandidate.ok { filePath := filePath, name := name, size := size }
  | Except.error e => TaskCandidate.failed e filePath name

/-- Embeds the partition loop over taskCandidates (index.ts lines 1249-1264):
stat successes become tasks (in candidate order); each stat failure is
immediately recorded as a terminal result with success false, size 0 and
retries 0 (in candidate order), incrementing the failed and completed
counters. -/
def collectCandidates : List TaskCandidate → List UploadTask × List UploadResult
  | [] => ([], [])
  | c :: rest =>
    let acc := collectCandidates rest
    match c with
    | TaskCandidate.ok t => (t :: acc.1, acc.2)
    | TaskCandidate.failed e fp nm =>
      (acc.1,
       { success := false, file := fp, name := nm, size := 0, retries := 0,
         error := some e } :: acc.2)

/-- The task list handed to the worker pool for a batch. -/
def batchTasks (cfg : BatchConfig) (statO : String → Except String Nat)
    (files : List String) : List UploadTask :=
  (collectCandidates (files.map (buildCandidate cfg statO))).1

/-- The immediate stat-failure results of a batch, in candidate order. -/
def statFailureResults (cfg : BatchConfig) (statO : String → Except String Nat)
    (files : List String) : List UploadResult :=
  (collectCandidates (files.map (buildCandidate cfg statO))).2

/-- The worker pool (index.ts lines 1311-1342) abstracted by the order in
which claimed tasks complete: the shared cursor hands out each task index
exactly once, and each completed task appends its run to the results
(results.push at line 1330).  order is the sequence of task indices in
completion order; a pool interleaving realizes a permutation of the claimed
indices.  attemptO gives each file's per-attempt outcomes and unlinkF whether
its auto-delete unlink would fail. -/
def transferRuns (cfg : BatchConfig) (attemptO : String → Nat → AttemptOutcome)
    (unlinkF : String → Bool) (tasks : List UploadTask) (order : List Nat) :
    List AttemptRun :=
  order.filterMap (fun i => (tasks.get? i).map (fun t =>
    uploadFileWithRetry cfg (attemptO t.filePath) (unlinkF t.filePath) t cfg.retryTimes))

/-- The results appended by the worker pool, in completion order. -/
def transferResults (cfg : BatchConfig) (attemptO : String → Nat → AttemptOutcome)
    (unlinkF : String → Bool) (tasks : List UploadTask) (order : List Nat) :
    List UploadResult :=
  (transferRuns cfg attemptO unlinkF tasks order).map (fun run => run.result)

/-- All client calls made during the transfer phase, in completion order. -/
def batchTransferCalls (cfg : BatchConfig) (attemptO : String → Nat → AttemptOutcome)
    (unlinkF : String → Bool) (tasks : List UploadTask) (order : List Nat) :
    List TransferCall :=
  ((transferRuns cfg attemptO unlinkF tasks order).map (fun run => run.calls)).flatten

/-- Embeds uploadFilesInBatches (index.ts lines 1222-1356): stat all
candidates, record stat failures immediately, then run the worker pool over
the remaining tasks; the returned array is the stat-failure results followed
by the transfer results in completion order. -/
def uploadFilesInBatches (cfg : BatchConfig) (statO : String → Except String Nat)
    (attemptO : String → Nat → AttemptOutcome) (unlinkF : String → Bool)
    (files : List String) (order : List Nat) : List UploadResult :=
  statFailureResults cfg statO files ++
    transferResults cfg attemptO unlinkF (batchTasks cfg statO files) order

/-- Embeds safeWindowSize (index.ts line 1269):
Math.max(1, Math.min(windowSize, tasks.length or-else 1)), where the JS
expression tasks.length or-else 1 yields 1 for an empty task list because 0
is falsy. -/
def safeWindowSize (windowSize tasksLen : Nat) : Nat :=
  max 1 (min windowSize (if tasksLen = 0 then 1 else tasksLen))

/-- Number of stat operations started before any of them is awaited: the
Promise.all over files.map at index.ts lines 1235-1247 starts the async stat
callback for every file synchronously during the map, so every stat is in
flight at once and the launch count is files.length, independent of the
concurrency cap. -/
def statLaunchCount (files : List String) : Nat := files.length

/-- Decides whether a stat outcome from the filesystem collaborator is a
failure. -/
def isStatFailure (r : Except String Nat) : Bool :=
  match r with
  | Except.ok _ => false
  | Except.error _ => true

/-- The resolved local path recorded in a candidate (the task's filePath for
a stat success, the filePath field for a stat failure). -/
def candFilePath : TaskCandidate → String
  | TaskCandidate.ok t => t.filePath
  | TaskCandidate.failed _ fp _ => fp

/-- Externally observable suspension events of one batch run, in program
order. -/
inductive BatchEv where
  | statCall (filePath : String) : BatchEv
  | transfer (call : TransferCall) : BatchEv
  deriving DecidableEq

/-- Event order of one batch run (index.ts lines 1235-1342): the handler
awaits the Promise.all of all stat lookups (line 1235) before any worker is
started (line 1339), so every stat event precedes every transfer event. -/
def batchEvents (cfg : BatchConfig) (statO : String → Except String Nat)
    (attemptO : String → Nat → AttemptOutcome) (unlinkF : String → Bool)
    (files : List String) (order : List Nat) : List BatchEv :=
  files.map (fun f => BatchEv.statCall (normalizePathPosix (resolvePath cfg.outDir f))) ++
    (batchTransferCalls cfg attemptO unlinkF (batchTasks cfg statO files) order).map
      BatchEv.transfer

/-- Value of the completed counter after the first k completion events of a
run: completed is incremented once per stat failure (index.ts line 1254) and
once per transfer completion (line 1323), and event k appends the k-th entry
of the results array, so the counter is the length of the results prefix. -/
def completedAfter (results : List UploadResult) (k : Nat) : Nat :=
  (results.take k).length

/-- Value of the uploadedBytes counter after the first k completion events:
line 1326 adds result.size for a successful transfer only; stat failures add
nothing (and carry size 0). -/
def uploadedBytesAfter (results : List UploadResult) (k : Nat) : Nat :=
  (results.take k).foldl (fun sum r => if r.success then sum + r.size else sum) 0

/-- Summary statistics computed once over the collected results in the
closeBundle handler (index.ts lines 1415-1421). -/
structure BatchSummary where
  successCount : Nat
  failedCount : Nat
  retryCount : Nat
  uploadedBytes : Nat
  deriving DecidableEq

/-- Embeds the summary fold of the closeBundle handler (index.ts lines
1415-1421): successCount is the number of successful results, failedCount the
rest, retryCount the sum of retries, uploadedBytes the sum of sizes over
successful results. -/
def summarizeResults (results : List UploadResult) : BatchSummary :=
  { successCount := (results.filter (fun r => r.success)).length,
    failedCount := results.length - (results.filter (fun r => r.success)).length,
    retryCount := results.foldl (fun sum r => sum + r.retries) 0,
    uploadedBytes := results.foldl (fun sum r => if r.success then sum + r.size else sum) 0 }

/-- Embeds the fail-on-error decision (index.ts lines 1465-1467): after the
summary over all collected results is computed and reported, an error is
thrown iff failedCount is positive and the failOnError policy is enabled;
the second component records whether the error is raised. -/
def closeBundleReport (failOnError : Bool) (results : List UploadResult) :
    BatchSummary × Bool :=
  (summarizeResults results,
   decide (0 < (summarizeResults results).failedCount) && failOnError)

/-- Concrete configuration used to evaluate the batch embedding on small
inputs. -/
def cfg0 : BatchConfig :=
  { outDir := "out", uploadDir := "up", concurrency := 1, retryTimes := 3,
    multipartThreshold := 10485760, autoDelete := false, failOnError := true }

/-- Concrete configuration with the auto-delete policy enabled. -/
def cfgAD : BatchConfig :=
  { outDir := "out", uploadDir := "up", concurrency := 2, retryTimes := 3,
    multipartThreshold := 10485760, autoDelete := true, failOnError := true }

/-- Concrete stat oracle: out/a.js exists with size 5, everything else is
unreadable. -/
def stat0 (p : String) : Except String Nat :=
  if p = "out/a.js" then Except.ok 5 else Except.error "ENOENT"

/-- Concrete stat oracle under which every path is unreadable. -/
def statFail0 (_ : String) : Except String Nat := Except.error "ENOENT"

/-- Concrete attempt oracle: every transfer attempt succeeds. -/
def attempt0 (_ : String) (_ : Nat) : AttemptOutcome := AttemptOutcome.success

/-- Concrete per-attempt oracle (single task) that always fails. -/
def orFail (_ : Nat) : AttemptOutcome := AttemptOutcome.failure "timeout"

/-- Concrete per-attempt oracle (single task) that always succeeds. -/
def orSucc (_ : Nat) : AttemptOutcome := AttemptOutcome.success

/-- Concrete unlink oracle: deleting a local file never fails. -/
def unlink0 (_ : String) : Bool := false

/-- Concrete candidate list with two entries. -/
def files0 : List String := ["a.js", "b.js"]

/-- Concrete task used to evaluate the retry executor. -/
def taskW : UploadTask := { filePath := "out/a.js", name := "up/a.js", size := 5 }

theorem string_data_append (a b : String) : (a ++ b).data = a.data ++ b.data := by
  cases a
  cases b
  rfl

theorem slashFlag_nil (b : Bool) : slashFlag b [] = b := rfl

theorem slashFlag_cons (b : Bool) (c : Char) (l : List Char) :
    slashFlag b (c :: l) = slashFlag (c == '/') l := rfl

theorem collapseAux_append (x : List Char) :
    ∀ (b : Bool) (y : List Char),
      collapseAux b (x ++ y) = collapseAux b x ++ collapseAux (slashFlag b x) y := by
  induction x with
  | nil => intro b y; simp [collapseAux, slashFlag_nil]
  | cons c x ih =>
    intro b y
    by_cases hc : c == '/'
    · cases b with
      | true => simp [collapseAux, hc, ih, slashFlag_cons]
      | false => simp [collapseAux, hc, ih, slashFlag_cons]
    · simp [collapseAux, hc, ih, slashFlag_cons]

theorem collapseAux_head_true :
    ∀ l : List Char, (collapseAux true l).head? ≠ some '/' := by
  intro l
  induction l with
  | nil => simp [collapseAux]
  | cons c rest ih =>
    by_cases hc : c == '/'
    · simpa [collapseAux, hc] using ih
    · simp [collapseAux, hc]
      intro h
      rw [h] at hc
      simp at hc

theorem hasAdjSlashes_cons (c : Char) (l : List Char)
    (hhead : l.head? ≠ some '/' ∨ (c == '/') = false)
    (hl : hasAdjSlashes l = false) : hasAdjSlashes (c :: l) = false := by
  cases l with
  | nil => rfl
  | cons d rest =>
    rcases hhead with h | h
    · have hd : (d == '/') = false := by
        by_cases hdd : d == '/'
        · exfalso
          apply h
          have : d = '/' := by simpa using hdd
          simp [List.head?, this]
        · simpa using hdd
      simp [hasAdjSlashes, hd, hl]
    · simp [hasAdjSlashes, h, hl]

theorem hasAdjSlashes_collapseAux :
    ∀ (l : List Char) (b : Bool), hasAdjSlashes (collapseAux b l) = false := by
  intro l
  induction l with
  | nil => intro b; simp [collapseAux, hasAdjSlashes]
  | cons c rest ih =>
    intro b
    by_cases hc : c == '/'
    · cases b with
      | true => simpa [collapseAux, hc] using ih true
      | false =>
        simp only [collapseAux, hc, if_true]
        apply hasAdjSlashes_cons
        · left; exact collapseAux_head_true rest
        · exact ih true
    · simp only [collapseAux, hc]
      have hcf : (c == '/') = false := by simpa using hc
      apply hasAdjSlashes_cons
      · right; exact hcf
      · exact ih false

theorem hasAdjSlashes_tail (c : Char) (l : List Char)
    (h : hasAdjSlashes (c :: l) = false) : hasAdjSlashes l = false := by
  cases l with
  | nil => rfl
  | cons d rest =>
    simp only [hasAdjSlashes, Bool.or_eq_false_iff] at h
    exact h.2

theorem hasAdjSlashes_dropWhile (p : Char → Bool) :
    ∀ l : List Char, hasAdjSlashes l = false →
      hasAdjSlashes (l.dropWhile p) = false := by
  intro l
  induction l with
  | nil => intro h; simpa using h
  | cons c rest ih =>
    intro h
    by_cases hc : p c
    · simp only [List.dropWhile, hc]
      exact ih (hasAdjSlashes_tail c rest h)
    · simpa [List.dropWhile, hc] using h

theorem head?_dropWhile_false (p : Char → Bool) :
    ∀ (l : List Char) (c : Char), (l.dropWhile p).head? = some c → p c = false := by
  intro l
  induction l with
  | nil => intro c h; simp [List.dropWhile] at h
  | cons d rest ih =>
    intro c h
    by_cases hd : p d
    · simp only [List.dropWhile, hd] at h
      exact ih c h
    · simp only [List.dropWhile, hd] at h
      simp only [List.head?, Option.some.injEq] at h
      subst h
      simpa using hd

/-- Claim C8: for every target directory and candidate path, the remote key
computed by normalizeObjectKey has no doubled slashes and no leading slash,
and normalization collapses repeated separators, so the keys computed for
"a//b/c.js" and "a/b/c.js" coincide for every target directory. -/
theorem normalizeObjectKey_spec (targetDir candidate : String) :
    hasAdjSlashes (normalizeObjectKey targetDir candidate).data = false ∧
    (∀ c, (normalizeObjectKey targetDir candidate).data.head? = some c →
      (c == '/') = false) ∧
    normalizeObjectKey targetDir "a//b/c.js" = normalizeObjectKey targetDir "a/b/c.js" := by
  refine ⟨?_, ?_, ?_⟩
  · exact hasAdjSlashes_dropWhile _ _ (hasAdjSlashes_collapseAux _ false)
  · intro c h
    exact head?_dropWhile_false _ _ c h
  · unfold normalizeObjectKey normalizePathPosix
    have h1 : (targetDir ++ "/" ++ "a//b/c.js").data =
        (targetDir.data ++ ['/', 'a']) ++ ['/', '/', 'b', '/', 'c', '.', 'j', 's'] := by
      rw [string_data_append, string_data_append]
      simp
    have h2 : (targetDir ++ "/" ++ "a/b/c.js").data =
        (targetDir.data ++ ['/', 'a']) ++ ['/', 'b', '/', 'c', '.', 'j', 's'] := by
      rw [string_data_append, string_data_append]
      simp
    have hflag : slashFlag false (targetDir.data ++ ['/', 'a']) = false := by
      unfold slashFlag
      rw [List.foldl_append]
      rfl
    have htails : collapseAux false ['/', '/', 'b', '/', 'c', '.', 'j', 's'] =
        collapseAux false ['/', 'b', '/', 'c', '.', 'j', 's'] := by decide
    have key : collapseAux false
        ((targetDir.data ++ ['/', 'a']) ++ ['/', '/', 'b', '/', 'c', '.', 'j', 's']) =
        collapseAux false
        ((targetDir.data ++ ['/', 'a']) ++ ['/', 'b', '/', 'c', '.', 'j', 's']) := by
      rw [collapseAux_append (targetDir.data ++ ['/', 'a']) false
            ['/', '/', 'b', '/', 'c', '.', 'j', 's'],
          collapseAux_append (targetDir.data ++ ['/', 'a']) false
            ['/', 'b', '/', 'c', '.', 'j', 's'],
          hflag, htails]
    rw [h1, h2, key]

theorem retryGo_zero (cfg : BatchConfig) (oracle : Nat → AttemptOutcome)
    (uf : Bool) (task : UploadTask) (mR attempt : Nat) :
    retryGo cfg oracle uf task mR attempt 0 =
      { result := { success := false, file := task.filePath, name := task.name,
                    size := task.size, retries := mR,
                    error := some "Max retries exceeded" },
        delays := [], calls := [], attempts := 0, cleanupWarned := false } := rfl

theorem retryGo_succ (cfg : BatchConfig) (oracle : Nat → AttemptOutcome)
    (uf : Bool) (task : UploadTask) (mR attempt fuel : Nat) :
    retryGo cfg oracle uf task mR attempt (fuel + 1) =
      match oracle attempt with
      | AttemptOutcome.success =>
        { result := { success := true, file := task.filePath, name := task.name,
                      size := task.size, retries := attempt - 1, error := none },
          delays := [], calls := [transferCallOf cfg task], attempts := attempt,
          cleanupWarned := cfg.autoDelete && uf }
      | AttemptOutcome.failure err =>
        if fuel = 0 then
          { result := { success := false, file := task.filePath, name := task.name,
                        size := task.size, retries := attempt - 1,
                        error := some err },
            delays := [], calls := [transferCallOf cfg task], attempts := attempt,
            cleanupWarned := false }
        else
          { result := (retryGo cfg oracle uf task mR (attempt + 1) fuel).result,
            delays := 1000 * attempt ::
              (retryGo cfg oracle uf task mR (attempt + 1) fuel).delays,
            calls := transferCallOf cfg task ::
              (retryGo cfg oracle uf task mR (attempt + 1) fuel).calls,
            attempts := (retryGo cfg oracle uf task mR (attempt + 1) fuel).attempts,
            cleanupWarned :=
              (retryGo cfg oracle uf task mR (attempt + 1) fuel).cleanupWarned } := rfl

theorem retryGo_allFail (cfg : BatchConfig) (oracle : Nat → AttemptOutcome)
    (unlinkFails : Bool) (task : UploadTask) (maxRetries : Nat)
    (errAt : Nat → String)
    (h : ∀ n, oracle n = AttemptOutcome.failure (errAt n)) :
    ∀ (k a : Nat),
      retryGo cfg oracle unlinkFails task maxRetries (a + 1) (k + 1) =
        { result := { success := false, file := task.filePath, name := task.name,
                      size := task.size, retries := a + k,
                      error := some (errAt (a + k + 1)) },
          delays := (List.range' (a + 1) k).map (fun n => 1000 * n),
          calls := List.replicate (k + 1) (transferCallOf cfg task),
          attempts := a + k + 1, cleanupWarned := false } := by
  intro k
  induction k with
  | zero =>
    intro a
    rw [retryGo_succ]
    simp [h (a + 1)]
  | succ k ih =>
    intro a
    have hk := ih (a + 1)
    rw [retryGo_succ]
    simp only [h (a + 1)]
    rw [if_neg (Nat.succ_ne_zero k), hk]
    have h1 : a + 1 + k = a + (k + 1) := by omega
    simp only [h1, List.range'_succ, List.map_cons, List.replicate_succ]

theorem retryGo_result_file (cfg : BatchConfig) (oracle : Nat → AttemptOutcome)
    (uf : Bool) (task : UploadTask) (mR : Nat) :
    ∀ (fuel attempt : Nat),
      (retryGo cfg oracle uf task mR attempt fuel).result.file = task.filePath := by
  intro fuel
  induction fuel with
  | zero => intro attempt; rw [retryGo_zero]
  | succ fuel ih =>
    intro attempt
    rw [retryGo_succ]
    cases h : oracle attempt with
    | success => simp
    | failure err =>
      by_cases hf : fuel = 0
      · simp [hf]
      · simp [hf, ih (attempt + 1)]

theorem retryGo_result_unlink (cfg : BatchConfig) (oracle : Nat → AttemptOutcome)
    (task : UploadTask) (mR : Nat) :
    ∀ (fuel attempt : Nat) (u₁ u₂ : Bool),
      (retryGo cfg oracle u₁ task mR attempt fuel).result =
        (retryGo cfg oracle u₂ task mR attempt fuel).result := by
  intro fuel
  induction fuel with
  | zero => intro attempt u₁ u₂; rw [retryGo_zero, retryGo_zero]
  | succ fuel ih =>
    intro attempt u₁ u₂
    rw [retryGo_succ, retryGo_succ]
    cases h : oracle attempt with
    | success => simp
    | failure err =>
      by_cases hf : fuel = 0
      · simp [hf]
      · simp [hf, ih (attempt + 1) u₁ u₂]

theorem retryGo_calls_all (cfg : BatchConfig) (oracle : Nat → AttemptOutcome)
    (uf : Bool) (task : UploadTask) (mR : Nat) :
    ∀ (fuel attempt : Nat), ∀ c ∈ (retryGo cfg oracle uf task mR attempt fuel).calls,
      c = transferCallOf cfg task := by
  intro fuel
  induction fuel with
  | zero =>
    intro attempt c hcm
    rw [retryGo_zero] at hcm
    simp at hcm
  | succ fuel ih =>
    intro attempt c hcm
    rw [retryGo_succ] at hcm
    cases h : oracle attempt with
    | success =>
      rw [h] at hcm
      simp at hcm
      exact hcm
    | failure err =>
      rw [h] at hcm
      by_cases hf : fuel = 0
      · simp [hf] at hcm
        exact hcm
      · simp only [hf, if_false, if_neg hf, List.mem_cons] at hcm
        rcases hcm with hcm | hcm
        · exact hcm
        · exact ih (attempt + 1) c hcm

theorem retryGo_calls_ne_nil (cfg : BatchConfig) (oracle : Nat → AttemptOutcome)
    (uf : Bool) (task : UploadTask) (mR : Nat) (fuel attempt : Nat) :
    (retryGo cfg oracle uf task mR attempt (fuel + 1)).calls ≠ [] := by
  rw [retryGo_succ]
  cases h : oracle attempt with
  | success => simp
  | failure err =>
    by_cases hf : fuel = 0
    · simp [hf]
    · simp [hf]

theorem pairwise_lt_range'_scaled :
    ∀ (k s : Nat), ((List.range' s k).map (fun n => 1000 * n)).Pairwise (· < ·) := by
  intro k
  induction k with
  | zero => intro s; simp
  | succ k ih =>
    intro s
    rw [List.range'_succ, List.map_cons]
    refine List.Pairwise.cons ?_ (ih (s + 1))
    intro b hb
    rw [List.mem_map] at hb
    obtain ⟨n, hn, rfl⟩ := hb
    rw [List.mem_range'_1] at hn
    omega

/-- Claim C3: for a task whose transfer attempt always fails retryably, the
retry executor with maxRetries = R (R ≥ 1) returns a terminal failure
carrying the last attempt's error, with retries = R - 1 (attemptsUsed = R),
and the backoff delays slept between attempts are exactly
1000 * attemptNumber for attempts 1..R-1: strictly increasing, none before
the first attempt and none after the final attempt; R = 1 means exactly one
attempt and no retry. -/
theorem retry_allFail_spec (cfg : BatchConfig) (oracle : Nat → AttemptOutcome)
    (unlinkFails : Bool) (task : UploadTask) (R : Nat) (errAt : Nat → String)
    (hR : 1 ≤ R) (hfail : ∀ n, oracle n = AttemptOutcome.failure (errAt n)) :
    (uploadFileWithRetry cfg oracle unlinkFails task R).result.success = false ∧
    (uploadFileWithRetry cfg oracle unlinkFails task R).result.retries = R - 1 ∧
    (uploadFileWithRetry cfg oracle unlinkFails task R).attempts = R ∧
    (uploadFileWithRetry cfg oracle unlinkFails task R).result.error = some (errAt R) ∧
    (uploadFileWithRetry cfg oracle unlinkFails task R).delays =
      (List.range' 1 (R - 1)).map (fun n => 1000 * n) ∧
    (uploadFileWithRetry cfg oracle unlinkFails task R).delays.Pairwise (· < ·) ∧
    (uploadFileWithRetry cfg oracle unlinkFails task R).delays.length = R - 1 ∧
    (R = 1 → (uploadFileWithRetry cfg oracle unlinkFails task R).delays = [] ∧
      (uploadFileWithRetry cfg oracle unlinkFails task R).attempts = 1) := by
  obtain ⟨k, rfl⟩ : ∃ k, R = k + 1 := ⟨R - 1, by omega⟩
  have hrun : uploadFileWithRetry cfg oracle unlinkFails task (k + 1) =
      retryGo cfg oracle unlinkFails task (k + 1) (0 + 1) (k + 1) := rfl
  rw [hrun, retryGo_allFail cfg oracle unlinkFails task (k + 1) errAt hfail k 0]
  refine ⟨rfl, by simp, by simp, by simp, by simp, ?_, by simp, ?_⟩
  · exact pairwise_lt_range'_scaled k 1
  · intro h1
    have hk : k = 0 := by omega
    subst hk
    simp

/-- Claim C4: the transfer-size decision is a pure function of sizeBytes and
the threshold: every client call of a task with size ≥ threshold (inclusive
at exactly the threshold) is a multipart upload with inner parallelism
min(concurrency, 4), every client call of a task with size < threshold is a
single-shot put, and with maxRetries ≥ 1 at least one call is made. -/
theorem sizePolicy_spec (cfg : BatchConfig) (oracle : Nat → AttemptOutcome)
    (uf : Bool) (task : UploadTask) (R : Nat) (hc : 1 ≤ cfg.concurrency) :
    (cfg.multipartThreshold ≤ task.size →
      ∀ c ∈ (uploadFileWithRetry cfg oracle uf task R).calls,
        c = TransferCall.multipartUpload task.name task.filePath multipartPartSize
          (min cfg.concurrency 4)) ∧
    (task.size < cfg.multipartThreshold →
      ∀ c ∈ (uploadFileWithRetry cfg oracle uf task R).calls,
        c = TransferCall.put task.name task.filePath) ∧
    (1 ≤ R → (uploadFileWithRetry cfg oracle uf task R).calls ≠ []) := by
  have hpar : multipartParallel cfg.concurrency = min cfg.concurrency 4 := by
    unfold multipartParallel
    omega
  refine ⟨?_, ?_, ?_⟩
  · intro hsize c hcm
    have hcall := retryGo_calls_all cfg oracle uf task R R 1 c hcm
    rw [hcall]
    unfold transferCallOf shouldUseMultipart
    rw [if_pos (by simpa using hsize), hpar]
  · intro hsize c hcm
    have hcall := retryGo_calls_all cfg oracle uf task R R 1 c hcm
    rw [hcall]
    unfold transferCallOf shouldUseMultipart
    rw [if_neg (by simpa using Nat.not_le.mpr hsize)]
  · intro hR
    obtain ⟨k, rfl⟩ : ∃ k, R = k + 1 := ⟨R - 1, by omega⟩
    exact retryGo_calls_ne_nil cfg oracle uf task (k + 1) k 1

theorem uploadFileWithRetry_result_file (cfg : BatchConfig)
    (oracle : Nat → AttemptOutcome) (uf : Bool) (task : UploadTask) (mR : Nat) :
    (uploadFileWithRetry cfg oracle uf task mR).result.file = task.filePath :=
  retryGo_result_file cfg oracle uf task mR mR 1

theorem filterMap_get_range {α β : Type} (l : List α) (g : α → β) :
    (List.range l.length).filterMap (fun i => (l.get? i).map g) = l.map g := by
  induction l with
  | nil => simp
  | cons a l ih =>
    rw [List.length_cons, List.range_succ_eq_map,
        @List.filterMap_cons_some _ _ (fun i => ((a :: l).get? i).map g) 0
          (List.map Nat.succ (List.range l.length)) (g a) rfl,
        List.filterMap_map]
    have hcomp : ((fun i => ((a :: l).get? i).map g) ∘ Nat.succ) =
        (fun i => (l.get? i).map g) := rfl
    rw [hcomp, ih]
    rfl

theorem transferRuns_perm (cfg : BatchConfig) (attemptO : String → Nat → AttemptOutcome)
    (unlinkF : String → Bool) (tasks : List UploadTask) (order : List Nat)
    (h : List.Perm order (List.range tasks.length)) :
    List.Perm (transferRuns cfg attemptO unlinkF tasks order)
      (tasks.map (fun t =>
        uploadFileWithRetry cfg (attemptO t.filePath) (unlinkF t.filePath) t
          cfg.retryTimes)) := by
  unfold transferRuns
  have hp := List.Perm.filterMap (fun i => (tasks.get? i).map (fun t =>
    uploadFileWithRetry cfg (attemptO t.filePath) (unlinkF t.filePath) t
      cfg.retryTimes)) h
  rw [filterMap_get_range] at hp
  exact hp

theorem collectCandidates_length (cs : List TaskCandidate) :
    (collectCandidates cs).1.length + (collectCandidates cs).2.length = cs.length := by
  induction cs with
  | nil => rfl
  | cons c rest ih =>
    cases c with
    | ok t =>
      simp only [collectCandidates, List.length_cons]
      omega
    | failed e fp nm =>
      simp only [collectCandidates, List.length_cons]
      omega

theorem collectCandidates_perm (cs : List TaskCandidate) :
    List.Perm
      ((collectCandidates cs).2.map (fun r => r.file) ++
        (collectCandidates cs).1.map (fun t => t.filePath))
      (cs.map candFilePath) := by
  induction cs with
  | nil => simp [collectCandidates]
  | cons c rest ih =>
    cases c with
    | ok t =>
      simp only [collectCandidates, List.map_cons, candFilePath]
      exact List.Perm.trans List.perm_middle (List.Perm.cons _ ih)
    | failed e fp nm =>
      simp only [collectCandidates, List.map_cons, candFilePath, List.cons_append]
      exact List.Perm.cons _ ih

theorem collectCandidates_statFlags (cs : List TaskCandidate) :
    ∀ r ∈ (collectCandidates cs).2, r.success = false ∧ r.size = 0 ∧ r.retries = 0 := by
  induction cs with
  | nil => intro r hr; simp [collectCandidates] at hr
  | cons c rest ih =>
    intro r hr
    cases c with
    | ok t =>
      simp only [collectCandidates] at hr
      exact ih r hr
    | failed e fp nm =>
      simp only [collectCandidates, List.mem_cons] at hr
      rcases hr with rfl | hr
      · exact ⟨rfl, rfl, rfl⟩
      · exact ih r hr

theorem mem_collectCandidates_tasks (cs : List TaskCandidate) (t : UploadTask) :
    t ∈ (collectCandidates cs).1 → TaskCandidate.ok t ∈ cs := by
  induction cs with
  | nil => intro h; simp [collectCandidates] at h
  | cons c rest ih =>
    intro h
    cases c with
    | ok t' =>
      simp only [collectCandidates, List.mem_cons] at h
      rcases h with rfl | h
      · exact List.mem_cons_self _ _
      · exact List.mem_cons_of_mem _ (ih h)
    | failed e fp nm =>
      simp only [collectCandidates] at h
      exact List.mem_cons_of_mem _ (ih h)

theorem buildCandidate_ok (cfg : BatchConfig) (statO : String → Except String Nat)
    (f : String) (t : UploadTask)
    (h : buildCandidate cfg statO f = TaskCandidate.ok t) :
    statO t.filePath = Except.ok t.size ∧
      t.filePath = normalizePathPosix (resolvePath cfg.outDir f) := by
  cases hs : statO (normalizePathPosix (resolvePath cfg.outDir f)) with
  | ok size =>
    simp only [buildCandidate, hs, TaskCandidate.ok.injEq] at h
    subst h
    exact ⟨hs, rfl⟩
  | error e =>
    simp [buildCandidate, hs] at h

theorem candFilePath_buildCandidate (cfg : BatchConfig)
    (statO : String → Except String Nat) (f : String) :
    candFilePath (buildCandidate cfg statO f) =
      normalizePathPosix (resolvePath cfg.outDir f) := by
  cases hs : statO (normalizePathPosix (resolvePath cfg.outDir f)) with
  | ok size => simp [buildCandidate, hs, candFilePath]
  | error e => simp [buildCandidate, hs, candFilePath]

theorem map_candFilePath_build (cfg : BatchConfig)
    (statO : String → Except String Nat) (files : List String) :
    (files.map (buildCandidate cfg statO)).map candFilePath =
      files.map (fun f => normalizePathPosix (resolvePath cfg.outDir f)) := by
  induction files with
  | nil => rfl
  | cons f rest ih =>
    simp only [List.map_cons, candFilePath_buildCandidate, ih]

theorem batchTasks_statOk (cfg : BatchConfig) (statO : String → Except String Nat)
    (files : List String) (t : UploadTask) (ht : t ∈ batchTasks cfg statO files) :
    statO t.filePath = Except.ok t.size := by
  have h := mem_collectCandidates_tasks _ t ht
  rw [List.mem_map] at h
  obtain ⟨f, hf, hbf⟩ := h
  exact (buildCandidate_ok cfg statO f t hbf).1

theorem uploadFilesInBatches_length (cfg : BatchConfig)
    (statO : String → Except String Nat) (attemptO : String → Nat → AttemptOutcome)
    (unlinkF : String → Bool) (files : List String) (order : List Nat)
    (hperm : List.Perm order (List.range (batchTasks cfg statO files).length)) :
    (uploadFilesInBatches cfg statO attemptO unlinkF files order).length =
      files.length := by
  unfold uploadFilesInBatches transferResults
  rw [List.length_append, List.length_map]
  have hruns := transferRuns_perm cfg attemptO unlinkF (batchTasks cfg statO files)
    order hperm
  rw [List.Perm.length_eq hruns, List.length_map]
  have hlen := collectCandidates_length (files.map (buildCandidate cfg statO))
  rw [List.length_map] at hlen
  unfold batchTasks statFailureResults
  omega

theorem transferResults_map_file_perm (cfg : BatchConfig)
    (attemptO : String → Nat → AttemptOutcome) (unlinkF : String → Bool)
    (tasks : List UploadTask) (order : List Nat)
    (hperm : List.Perm order (List.range tasks.length)) :
    List.Perm ((transferResults cfg attemptO unlinkF tasks order).map (fun r => r.file))
      (tasks.map (fun t => t.filePath)) := by
  unfold transferResults
  rw [List.map_map]
  have hp := List.Perm.map (fun run : AttemptRun => run.result.file)
    (transferRuns_perm cfg attemptO unlinkF tasks order hperm)
  rw [List.map_map] at hp
  simp only [Function.comp_def] at hp ⊢
  simpa only [uploadFileWithRetry_result_file] using hp

theorem batch_files_perm (cfg : BatchConfig) (statO : String → Except String Nat)
    (attemptO : String → Nat → AttemptOutcome) (unlinkF : String → Bool)
    (files : List String) (order : List Nat)
    (hperm : List.Perm order (List.range (batchTasks cfg statO files).length)) :
    List.Perm
      ((statFailureResults cfg statO files).map (fun r => r.file) ++
        (transferResults cfg attemptO unlinkF (batchTasks cfg statO files) order).map
          (fun r => r.file))
      (files.map (fun f => normalizePathPosix (resolvePath cfg.outDir f))) := by
  have htr := transferResults_map_file_perm cfg attemptO unlinkF
    (batchTasks cfg statO files) order hperm
  have happ := List.Perm.append_left
    ((statFailureResults cfg statO files).map (fun r => r.file)) htr
  refine List.Perm.trans happ ?_
  have hcp := collectCandidates_perm (files.map (buildCandidate cfg statO))
  rw [map_candFilePath_build] at hcp
  exact hcp

theorem statFailureResults_files (cfg : BatchConfig)
    (statO : String → Except String Nat) (files : List String) :
    (statFailureResults cfg statO files).map (fun r => r.file) =
      (files.filter (fun f =>
        isStatFailure (statO (normalizePathPosix (resolvePath cfg.outDir f))))).map
        (fun f => normalizePathPosix (resolvePath cfg.outDir f)) := by
  induction files with
  | nil => rfl
  | cons f rest ih =>
    cases hs : statO (normalizePathPosix (resolvePath cfg.outDir f)) with
    | ok size =>
      have hb : buildCandidate cfg statO f = TaskCandidate.ok
          { filePath := normalizePathPosix (resolvePath cfg.outDir f),
            name := normalizeObjectKey cfg.uploadDir f, size := size } := by
        simp [buildCandidate, hs]
      have hflt : isStatFailure
          (statO (normalizePathPosix (resolvePath cfg.outDir f))) = false := by
        rw [hs]; rfl
      simp only [statFailureResults, List.map_cons, hb, collectCandidates,
        List.filter_cons, hflt, Bool.false_eq_true, if_false]
      exact ih
    | error e =>
      have hb : buildCandidate cfg statO f = TaskCandidate.failed e
          (normalizePathPosix (resolvePath cfg.outDir f))
          (normalizeObjectKey cfg.uploadDir f) := by
        simp [buildCandidate, hs]
      have hflt : isStatFailure
          (statO (normalizePathPosix (resolvePath cfg.outDir f))) = true := by
        rw [hs]; rfl
      simp only [statFailureResults, List.map_cons, hb, collectCandidates,
        List.filter_cons, hflt, if_true]
      exact congrArg _ ih

/-- Claim C2: the union of the immediate stat-failure results and the
transfer-phase results has exactly one entry per input candidate (no
duplicates, no drops: its multiset of local paths is a permutation of the
candidates' resolved paths); every stat-failure result is terminal with
success false, size 0 and retries 0; and a candidate whose stat fails is
never handed to the transfer phase. -/
theorem candidate_partition_spec (cfg : BatchConfig)
    (statO : String → Except String Nat) (attemptO : String → Nat → AttemptOutcome)
    (unlinkF : String → Bool) (files : List String) (order : List Nat)
    (hperm : List.Perm order (List.range (batchTasks cfg statO files).length)) :
    List.Perm
      ((statFailureResults cfg statO files).map (fun r => r.file) ++
        (transferResults cfg attemptO unlinkF (batchTasks cfg statO files) order).map
          (fun r => r.file))
      (files.map (fun f => normalizePathPosix (resolvePath cfg.outDir f))) ∧
    (∀ r ∈ statFailureResults cfg statO files,
      r.success = false ∧ r.size = 0 ∧ r.retries = 0) ∧
    (∀ f ∈ files,
      isStatFailure (statO (normalizePathPosix (resolvePath cfg.outDir f))) = true →
        normalizePathPosix (resolvePath cfg.outDir f) ∉
          (batchTasks cfg statO files).map (fun t => t.filePath)) := by
  refine ⟨batch_files_perm cfg statO attemptO unlinkF files order hperm, ?_, ?_⟩
  · intro r hr
    exact collectCandidates_statFlags (files.map (buildCandidate cfg statO)) r hr
  · intro f hf hfail hmem
    rw [List.mem_map] at hmem
    obtain ⟨t, ht, htp⟩ := hmem
    have hok := batchTasks_statOk cfg statO files t ht
    rw [htp] at hok
    rw [hok] at hfail
    simp [isStatFailure] at hfail

theorem foldl_bytes_init (l : List UploadResult) :
    ∀ i : Nat, i ≤ l.foldl (fun sum r => if r.success then sum + r.size else sum) i := by
  induction l with
  | nil => intro i; simp
  | cons r rest ih =>
    intro i
    rw [List.foldl_cons]
    refine le_trans ?_ (ih (if r.success then i + r.size else i))
    by_cases hs : r.success
    · rw [if_pos hs]; omega
    · rw [if_neg hs]

theorem foldl_bytes_eq (l : List UploadResult) :
    ∀ i : Nat, l.foldl (fun sum r => if r.success then sum + r.size else sum) i =
      i + ((l.filter (fun r => r.success)).map (fun r => r.size)).sum := by
  induction l with
  | nil => intro i; simp
  | cons r rest ih =>
    intro i
    rw [List.foldl_cons]
    by_cases hs : r.success
    · rw [if_pos hs, ih]
      simp only [List.filter_cons, hs, if_true, List.map_cons, List.sum_cons]
      omega
    · rw [if_neg hs, ih]
      have hsf : r.success = false := by simpa using hs
      simp only [List.filter_cons, hsf, Bool.false_eq_true, if_false]

theorem completedAfter_mono (rs : List UploadResult) (k1 k2 : Nat) (hk : k1 ≤ k2) :
    completedAfter rs k1 ≤ completedAfter rs k2 := by
  unfold completedAfter
  rw [List.length_take, List.length_take]
  exact min_le_min hk le_rfl

theorem uploadedBytesAfter_mono (rs : List UploadResult) (k1 k2 : Nat) (hk : k1 ≤ k2) :
    uploadedBytesAfter rs k1 ≤ uploadedBytesAfter rs k2 := by
  unfold uploadedBytesAfter
  obtain ⟨d, rfl⟩ : ∃ d, k2 = k1 + d := ⟨k2 - k1, by omega⟩
  rw [List.take_add, List.foldl_append]
  exact foldl_bytes_init _ _

theorem uploadFileWithRetry_result_unlink (cfg : BatchConfig)
    (oracle : Nat → AttemptOutcome) (task : UploadTask) (mR : Nat) (u₁ u₂ : Bool) :
    (uploadFileWithRetry cfg oracle u₁ task mR).result =
      (uploadFileWithRetry cfg oracle u₂ task mR).result :=
  retryGo_result_unlink cfg oracle task mR mR 1 u₁ u₂

theorem transferResults_unlink (cfg : BatchConfig)
    (attemptO : String → Nat → AttemptOutcome) (tasks : List UploadTask)
    (order : List Nat) (uf₁ uf₂ : String → Bool) :
    transferResults cfg attemptO uf₁ tasks order =
      transferResults cfg attemptO uf₂ tasks order := by
  unfold transferResults transferRuns
  induction order with
  | nil => rfl
  | cons i rest ih =>
    cases hg : tasks.get? i with
    | none =>
      simp only [List.filterMap_cons]
      rw [hg]
      simpa using ih
    | some t =>
      simp only [List.filterMap_cons]
      rw [hg]
      simp only [Option.map_some', List.map_cons, List.cons.injEq]
      exact ⟨uploadFileWithRetry_result_unlink cfg (attemptO t.filePath) t
        cfg.retryTimes (uf₁ t.filePath) (uf₂ t.filePath), ih⟩

theorem transferRuns_nil (cfg : BatchConfig)
    (attemptO : String → Nat → AttemptOutcome) (unlinkF : String → Bool)
    (order : List Nat) : transferRuns cfg attemptO unlinkF [] order = [] := by
  unfold transferRuns
  refine List.filterMap_eq_nil_iff.mpr ?_
  intro i _
  rw [List.get?_nil]
  rfl

/-- Claim C1 counterexample: with two candidates, concurrency 1 (so
1 ≤ C ≤ N) and the only possible completion order, the batch output has the
right length but its order does not match the input candidate order: the
stat failure of the second candidate is recorded before the transfer result
of the first candidate. -/
theorem batch_order_counterexample :
    1 ≤ cfg0.concurrency ∧ cfg0.concurrency ≤ files0.length ∧
    List.Perm [0] (List.range (batchTasks cfg0 stat0 files0).length) ∧
    (uploadFilesInBatches cfg0 stat0 attempt0 unlink0 files0 [0]).length = 2 ∧
    (uploadFilesInBatches cfg0 stat0 attempt0 unlink0 files0 [0]).map
      (fun r => r.file) = ["out/b.js", "out/a.js"] ∧
    (uploadFilesInBatches cfg0 stat0 attempt0 unlink0 files0 [0]).map
        (fun r => r.file) ≠
      files0.map (fun f => normalizePathPosix (resolvePath cfg0.outDir f)) := by
  decide

/-- Claim C1 (amended): for every batch and every completion order of the
worker pool, the returned result array has exactly N entries — one per input
candidate up to permutation of the resolved paths — but its order is the
stat-failure results first, in input candidate order, followed by the
transfer results in completion order, which need not match the input
order. -/
theorem batch_count_spec (cfg : BatchConfig) (statO : String → Except String Nat)
    (attemptO : String → Nat → AttemptOutcome) (unlinkF : String → Bool)
    (files : List String) (order : List Nat)
    (hperm : List.Perm order (List.range (batchTasks cfg statO files).length)) :
    (uploadFilesInBatches cfg statO attemptO unlinkF files order).length =
      files.length ∧
    List.Perm
      ((uploadFilesInBatches cfg statO attemptO unlinkF files order).map
        (fun r => r.file))
      (files.map (fun f => normalizePathPosix (resolvePath cfg.outDir f))) ∧
    (statFailureResults cfg statO files).map (fun r => r.file) =
      (files.filter (fun f =>
        isStatFailure (statO (normalizePathPosix (resolvePath cfg.outDir f))))).map
        (fun f => normalizePathPosix (resolvePath cfg.outDir f)) := by
  refine ⟨uploadFilesInBatches_length cfg statO attemptO unlinkF files order hperm,
    ?_, statFailureResults_files cfg statO files⟩
  unfold uploadFilesInBatches
  rw [List.map_append]
  exact batch_files_perm cfg statO attemptO unlinkF files order hperm

/-- Claim C5 counterexample: the stat lookups are not bounded by the
concurrency cap: with two candidates and concurrency 1, the Promise.all over
files.map launches both stats at once, exceeding the cap. -/
theorem stat_bound_counterexample :
    statLaunchCount files0 = 2 ∧ cfg0.concurrency = 1 ∧
    ¬ statLaunchCount files0 ≤ cfg0.concurrency := by
  decide

/-- Claim C5 (amended): all stat lookups are launched concurrently — all at
once, the in-flight count is the number of candidates, not bounded by the
concurrency cap — and all of them settle before any transfer begins: in the
event order of a batch run the first files.length events are exactly the
stat calls (in candidate order) and every later event is a transfer call. -/
theorem stat_phase_spec (cfg : BatchConfig) (statO : String → Except String Nat)
    (attemptO : String → Nat → AttemptOutcome) (unlinkF : String → Bool)
    (files : List String) (order : List Nat) :
    statLaunchCount files = files.length ∧
    (batchEvents cfg statO attemptO unlinkF files order).take files.length =
      files.map (fun f =>
        BatchEv.statCall (normalizePathPosix (resolvePath cfg.outDir f))) ∧
    ∀ e ∈ (batchEvents cfg statO attemptO unlinkF files order).drop files.length,
      ∃ c, e = BatchEv.transfer c := by
  have hlen : files.length = (files.map (fun f =>
      BatchEv.statCall (normalizePathPosix (resolvePath cfg.outDir f)))).length :=
    (List.length_map _ _).symm
  refine ⟨rfl, ?_, ?_⟩
  · unfold batchEvents
    rw [hlen, List.take_left]
  · intro e he
    unfold batchEvents at he
    rw [hlen, List.drop_left] at he
    rw [List.mem_map] at he
    obtain ⟨c, hc, rfl⟩ := he
    exact ⟨c, rfl⟩

/-- Claim C6: along the sequence of completion events of a run, the completed
and uploadedBytes counters are nondecreasing; at run end the completed
counter equals the number of candidates (each task recorded exactly once),
and the accumulated uploadedBytes equals the sum of sizeBytes over exactly
the results with success = true. -/
theorem progress_counters_spec (cfg : BatchConfig)
    (statO : String → Except String Nat) (attemptO : String → Nat → AttemptOutcome)
    (unlinkF : String → Bool) (files : List String) (order : List Nat) (k1 k2 : Nat)
    (hperm : List.Perm order (List.range (batchTasks cfg statO files).length))
    (hk : k1 ≤ k2) :
    completedAfter (uploadFilesInBatches cfg statO attemptO unlinkF files order) k1 ≤
      completedAfter (uploadFilesInBatches cfg statO attemptO unlinkF files order) k2 ∧
    uploadedBytesAfter (uploadFilesInBatches cfg statO attemptO unlinkF files order) k1 ≤
      uploadedBytesAfter (uploadFilesInBatches cfg statO attemptO unlinkF files order) k2 ∧
    completedAfter (uploadFilesInBatches cfg statO attemptO unlinkF files order)
      (uploadFilesInBatches cfg statO attemptO unlinkF files order).length =
      files.length ∧
    uploadedBytesAfter (uploadFilesInBatches cfg statO attemptO unlinkF files order)
      (uploadFilesInBatches cfg statO attemptO unlinkF files order).length =
      (((uploadFilesInBatches cfg statO attemptO unlinkF files order).filter
        (fun r => r.success)).map (fun r => r.size)).sum := by
  refine ⟨completedAfter_mono _ k1 k2 hk, uploadedBytesAfter_mono _ k1 k2 hk, ?_, ?_⟩
  · unfold completedAfter
    rw [List.take_length]
    exact uploadFilesInBatches_length cfg statO attemptO unlinkF files order hperm
  · unfold uploadedBytesAfter
    rw [List.take_length, foldl_bytes_eq]
    omega

/-- Claim C7: the batch never aborts mid-run: every candidate contributes a
terminal result and the full result list (length N) is collected before the
single fail-on-error decision; the summary reported is the fold over those
results regardless of the policy flag, and the error is raised iff
failedCount is positive and the fail-on-error policy is enabled. -/
theorem drain_and_failOnError_spec (cfg : BatchConfig)
    (statO : String → Except String Nat) (attemptO : String → Nat → AttemptOutcome)
    (unlinkF : String → Bool) (files : List String) (order : List Nat) (foe : Bool)
    (hperm : List.Perm order (List.range (batchTasks cfg statO files).length)) :
    (uploadFilesInBatches cfg statO attemptO unlinkF files order).length =
      files.length ∧
    (closeBundleReport foe (uploadFilesInBatches cfg statO attemptO unlinkF files
      order)).1 =
      summarizeResults (uploadFilesInBatches cfg statO attemptO unlinkF files order) ∧
    ((closeBundleReport foe (uploadFilesInBatches cfg statO attemptO unlinkF files
      order)).2 = true ↔
      0 < (summarizeResults (uploadFilesInBatches cfg statO attemptO unlinkF files
        order)).failedCount ∧ foe = true) := by
  refine ⟨uploadFilesInBatches_length cfg statO attemptO unlinkF files order hperm,
    rfl, ?_⟩
  unfold closeBundleReport
  simp

/-- Claim C9: a failure of the auto-delete unlink after a successful transfer
is logged but never changes the returned UploadResult: the result is
identical whether the unlink fails or not; a task succeeding on its first
attempt with the auto-delete policy enabled and a failing unlink still
returns success = true with a cleanup warning logged; and the batch result
list — hence all success/failure accounting — is unchanged by unlink
failures. -/
theorem cleanup_spec (cfg : BatchConfig) (statO : String → Except String Nat)
    (attemptO : String → Nat → AttemptOutcome) (uf₁ uf₂ : String → Bool)
    (files : List String) (order : List Nat) (oracle : Nat → AttemptOutcome)
    (task : UploadTask) (R : Nat) (hA : cfg.autoDelete = true)
    (hs : oracle 1 = AttemptOutcome.success) (hR : 1 ≤ R) :
    (uploadFileWithRetry cfg oracle true task R).result =
      (uploadFileWithRetry cfg oracle false task R).result ∧
    (uploadFileWithRetry cfg oracle true task R).result.success = true ∧
    (uploadFileWithRetry cfg oracle true task R).cleanupWarned = true ∧
    uploadFilesInBatches cfg statO attemptO uf₁ files order =
      uploadFilesInBatches cfg statO attemptO uf₂ files order := by
  obtain ⟨k, rfl⟩ : ∃ k, R = k + 1 := ⟨R - 1, by omega⟩
  refine ⟨uploadFileWithRetry_result_unlink cfg oracle task (k + 1) true false,
    ?_, ?_, ?_⟩
  · unfold uploadFileWithRetry
    rw [retryGo_succ]
    simp [hs]
  · unfold uploadFileWithRetry
    rw [retryGo_succ]
    simp [hs, hA]
  · unfold uploadFilesInBatches
    exact congrArg (fun x => statFailureResults cfg statO files ++ x)
      (transferResults_unlink cfg attemptO (batchTasks cfg statO files) order uf₁ uf₂)

/-- Claim C10: if every candidate of a non-empty batch fails the stat step,
the run still terminates with an empty task list: safeWindowSize evaluates
to 1 (a single worker that exits immediately), no put or multipartUpload
call is ever made, and the returned results are exactly one failed entry per
candidate, in input order, each with size 0 and retries 0. -/
theorem all_stat_fail_spec (cfg : BatchConfig) (statO : String → Except String Nat)
    (attemptO : String → Nat → AttemptOutcome) (unlinkF : String → Bool)
    (files : List String) (order : List Nat) (hne : files ≠ [])
    (hfail : ∀ f ∈ files,
      isStatFailure (statO (normalizePathPosix (resolvePath cfg.outDir f))) = true) :
    batchTasks cfg statO files = [] ∧
    safeWindowSize cfg.concurrency (batchTasks cfg statO files).length = 1 ∧
    batchTransferCalls cfg attemptO unlinkF (batchTasks cfg statO files) order = [] ∧
    (uploadFilesInBatches cfg statO attemptO unlinkF files order).length =
      files.length ∧
    uploadFilesInBatches cfg statO attemptO unlinkF files order ≠ [] ∧
    (∀ r ∈ uploadFilesInBatches cfg statO attemptO unlinkF files order,
      r.success = false ∧ r.size = 0 ∧ r.retries = 0) ∧
    (uploadFilesInBatches cfg statO attemptO unlinkF files order).map
        (fun r => r.file) =
      files.map (fun f => normalizePathPosix (resolvePath cfg.outDir f)) := by
  have hfiles : files.filter (fun f =>
      isStatFailure (statO (normalizePathPosix (resolvePath cfg.outDir f)))) = files :=
    List.filter_eq_self.mpr hfail
  have hstatmap := statFailureResults_files cfg statO files
  rw [hfiles] at hstatmap
  have hstatlen : (statFailureResults cfg statO files).length = files.length := by
    have h1 := congrArg List.length hstatmap
    rw [List.length_map, List.length_map] at h1
    exact h1
  have hcl := collectCandidates_length (files.map (buildCandidate cfg statO))
  rw [List.length_map] at hcl
  have htaskslen : (batchTasks cfg statO files).length = 0 := by
    unfold batchTasks
    unfold statFailureResults at hstatlen
    omega
  have htasks : batchTasks cfg statO files = [] :=
    List.eq_nil_of_length_eq_zero htaskslen
  have hresults : uploadFilesInBatches cfg statO attemptO unlinkF files order =
      statFailureResults cfg statO files := by
    unfold uploadFilesInBatches transferResults
    rw [htasks, transferRuns_nil]
    simp
  refine ⟨htasks, ?_, ?_, ?_, ?_, ?_, ?_⟩
  · rw [htasks]
    unfold safeWindowSize
    simp
  · unfold batchTransferCalls
    rw [htasks, transferRuns_nil]
    rfl
  · rw [hresults]
    have h1 := congrArg List.length hstatmap
    rw [List.length_map, List.length_map] at h1
    exact h1
  · rw [hresults]
    intro hcon
    apply hne
    have h1 : (statFailureResults cfg statO files).length = 0 := by
      rw [hcon]; rfl
    rw [hstatlen] at h1
    exact List.eq_nil_of_length_eq_zero h1
  · rw [hresults]
    intro r hr
    exact collectCandidates_statFlags (files.map (buildCandidate cfg statO)) r hr
  · rw [hresults]
    exact hstatmap

theorem candidate_partition_spec_witness :
    List.Perm
      ((statFailureResults cfg0 stat0 files0).map (fun r => r.file) ++
        (transferResults cfg0 attempt0 unlink0 (batchTasks cfg0 stat0 files0)
          [0]).map (fun r => r.file))
      (files0.map (fun f => normalizePathPosix (resolvePath cfg0.outDir f))) :=
  (candidate_partition_spec cfg0 stat0 attempt0 unlink0 files0 [0] (by decide)).1

theorem retry_allFail_spec_witness :
    (uploadFileWithRetry cfg0 orFail false taskW 3).result.retries = 3 - 1 :=
  (retry_allFail_spec cfg0 orFail false taskW 3 (fun _ => "timeout") (by decide)
    (fun _ => rfl)).2.1

theorem sizePolicy_spec_witness :
    (uploadFileWithRetry cfg0 orSucc false taskW 3).calls ≠ [] :=
  (sizePolicy_spec cfg0 orSucc false taskW 3 (by decide)).2.2 (by decide)

theorem batch_count_spec_witness :
    List.Perm
      ((uploadFilesInBatches cfg0 stat0 attempt0 unlink0 files0 [0]).map
        (fun r => r.file))
      (files0.map (fun f => normalizePathPosix (resolvePath cfg0.outDir f))) :=
  (batch_count_spec cfg0 stat0 attempt0 unlink0 files0 [0] (by decide)).2.1

theorem progress_counters_spec_witness :
    completedAfter (uploadFilesInBatches cfg0 stat0 attempt0 unlink0 files0 [0])
      (uploadFilesInBatches cfg0 stat0 attempt0 unlink0 files0 [0]).length =
      files0.length :=
  (progress_counters_spec cfg0 stat0 attempt0 unlink0 files0 [0] 0 1 (by decide)
    (by decide)).2.2.1

theorem drain_and_failOnError_spec_witness :
    (uploadFilesInBatches cfg0 stat0 attempt0 unlink0 files0 [0]).length =
      files0.length :=
  (drain_and_failOnError_spec cfg0 stat0 attempt0 unlink0 files0 [0] true
    (by decide)).1

theorem cleanup_spec_witness :
    (uploadFileWithRetry cfgAD orSucc true taskW 3).result.success = true :=
  (cleanup_spec cfgAD stat0 attempt0 unlink0 unlink0 files0 [0] orSucc taskW 3 rfl
    rfl (by decide)).2.1

theorem all_stat_fail_spec_witness :
    safeWindowSize cfg0.concurrency (batchTasks cfg0 statFail0 files0).length = 1 :=
  (all_stat_fail_spec cfg0 statFail0 attempt0 unlink0 files0 [] (by decide)
    (by decide)).2.1

end DeployOss
